import Mathlib

/-!
Verification development for the `ndsb` package (`src/ndsb/__init__.py`).

The development shallowly embeds the two independent subsystems of the
module:

* the locked append file (`Data.freeze` / `thaw`), modelled over an
  explicit byte-level store state, with the pickle serialization of the
  standard library abstracted as an executable encode/decode pair that is
  faithful in the properties the code relies on (round-trip, and the fact
  that the sentinel text written by `thaw` does not start with the pickle
  protocol header and hence fails deserialization);
* the artifact / packaging / transmission pipeline (`Artifact`,
  `artificer`, `Beam.fire`), modelled over an explicit filesystem state
  (a list of directories and a list of files), with the outcome of the
  external HTTP POST and of the external tar library passed in as
  explicit parameters.

Python exceptions are modelled with `Except`; since a raised exception
does not roll back the filesystem, the stateful operations return the
filesystem alongside the `Except` result.
-/

namespace Ndsb

/-- Error values modelling the Python exceptions raised by the module.
Structured fields stand in for the interpolated parts of the Python
message strings. -/
inductive Err
  /-- `FileNotFoundError` (opening a missing file / `os.remove` on a missing file). -/
  | fileNotFound (file : String)
  /-- `pickle.UnpicklingError` propagating out of `pickle.load` in `thaw`. -/
  | unpicklingError
  /-- The `IOError` raised by `Data.freeze` on undeserializable content;
  carries the file and the underlying cause. -/
  | corruptStore (file : String) (cause : String)
  /-- `FileExistsError` from `mkdir(exist_ok=False)` or `open(..., "x")`. -/
  | fileExists (p : List String)
  /-- `NameError`: a global name is referenced but not defined. -/
  | nameError (n : String)
  /-- `AttributeError`: object of the named class has no such attribute. -/
  | attributeError (cls : String) (attr : String)
  /-- `RuntimeError` with the given message. -/
  | runtimeError (msg : String)
  /-- `IntruderAlert` raised on a certificate-verification SSL failure. -/
  | intruderAlert
  /-- `UnboundLocalError`: a local variable is referenced before assignment. -/
  | unboundLocal (n : String)
  /-- `BeamError` raised on a non-200 HTTP status; carries the raw body and status. -/
  | beamError (raw : String) (status : Nat)
  /-- `BeamError` raised when the response body is not parseable JSON. -/
  | beamInvalidJson (raw : String) (status : Nat)
  /-- `KeyError`: mapping subscript on a missing key. -/
  | keyError (k : String)
  /-- An exception raised by `tarfile` during archive creation. -/
  | tarCreationFailed
deriving DecidableEq, Repr

/-! ## The locked append file (`Data.freeze` / `thaw`)

A record is an opaque serializable payload, modelled as a `Nat`.  The
store file is `none` when absent and `some bs` when it exists with byte
content `bs` (bytes as `Nat`).

`pickle.dump` / `pickle.load` of a list of records are modelled by
`encodeRecords` / `decodeRecords`: a protocol header (the two bytes
`0x80 0x04` that start every pickle this code writes), a length field and
the payloads in a self-delimiting unary code.  Like `pickle.load`, the
decoder ignores trailing bytes after a complete document, and it fails on
anything that does not start with the protocol header. -/

/-- Unary, self-delimiting encoding of one record payload. -/
def encNat : Nat → List Nat
  | 0 => [0]
  | n + 1 => 1 :: encNat n

/-- Decoder matching `encNat`; returns the value and the remaining bytes. -/
def decNat : List Nat → Option (Nat × List Nat)
  | [] => none
  | 0 :: rest => some (0, rest)
  | 1 :: rest =>
    match decNat rest with
    | none => none
    | some (n, r) => some (n + 1, r)
  | _ :: _ => none

/-- Decode exactly `count` records, ignoring any trailing bytes
(as `pickle.load` reads a single document and leaves the rest). -/
def decodeBody : Nat → List Nat → Option (List Nat)
  | 0, _ => some []
  | c + 1, bs =>
    match decNat bs with
    | none => none
    | some (n, rest) =>
      match decodeBody c rest with
      | none => none
      | some ns => some (n :: ns)

/-- Serialized form of a list of records: protocol header, count, payloads. -/
def encodeRecords (rs : List Nat) : List Nat :=
  128 :: 4 :: (encNat rs.length ++ (rs.map encNat).flatten)

/-- Deserialize a byte string as a list of records; `none` models the
exception raised by `pickle.load`. -/
def decodeRecords (bs : List Nat) : Option (List Nat) :=
  if bs.take 2 = [128, 4] then
    match decNat (bs.drop 2) with
    | none => none
    | some (c, rest) => decodeBody c rest
  else none

/-- `Data.freeze(file)`: under the exclusive lock, open append-or-create
(an absent file comes into existence empty), deserialize the current
contents if non-empty (raising the corrupt-store `IOError` on failure,
without touching the contents), append the new record, then truncate and
rewrite the whole file.  Returns the outcome and the file state after the
call. -/
def freeze (r : Nat) (file : String) (st : Option (List Nat)) :
    Except Err Unit × Option (List Nat) :=
  -- portalocker.Lock(file, "ab+"): append-or-create, so the file exists below.
  let bs := st.getD []
  if bs = [] then
    -- fh.tell() = 0: start from the empty list of pickles.
    (Except.ok (), some (encodeRecords [r]))
  else
    match decodeRecords bs with
    | none =>
      -- raise IOError: corrupt artifact pickle file; the truncate-and-rewrite
      -- below the try block is never reached, so the contents are untouched.
      (Except.error (Err.corruptStore file "unpickling failed"), some bs)
    | some rs =>
      -- fh.seek(0); fh.truncate(); pickle.dump(pickles, fh); flush; fsync.
      (Except.ok (), some (encodeRecords (rs ++ [r])))

/-- Sequential composition of `freeze` calls (each one takes and releases
the lock), stopping at the first failure. -/
def freezeAll (rs : List Nat) (file : String) (st : Option (List Nat)) :
    Except Err Unit × Option (List Nat) :=
  match rs with
  | [] => (Except.ok (), st)
  | r :: rest =>
    match freeze r file st with
    | (Except.ok _, st') => freezeAll rest file st'
    | (Except.error e, st') => (Except.error e, st')

/-- The sentinel text `thaw` writes over the file before deleting it. -/
def sentinelStr : String := "all your frozen data melted, move along."

/-- The sentinel as bytes. -/
def sentinelBytes : List Nat := sentinelStr.toList.map Char.toNat

/-- The byte content of the store file after `thaw` has scrambled it:
`fh.seek(0); fh.write(sentinel)` overwrites the first bytes in place and
leaves any longer remainder of the previous content. -/
def scrambleBytes (bs : List Nat) : List Nat :=
  sentinelBytes ++ bs.drop sentinelBytes.length

/-- Events of one `thaw` call, in execution order. -/
inductive TEv
  /-- the exclusive lock is acquired -/
  | acquire
  /-- `pickle.load` returns the given records -/
  | load (rs : List Nat)
  /-- the file content is overwritten with the given bytes -/
  | scramble (written : List Nat)
  /-- the lock is released (the `with` block exits) -/
  | release
  /-- `time.sleep(0.1)` -/
  | delay
  /-- `os.remove(file)` -/
  | remove
deriving DecidableEq, Repr

/-- `thaw(file)`: open read-write under the exclusive lock (raising
`FileNotFoundError` on an absent file), deserialize the full sequence,
overwrite the content with the sentinel, release the lock, sleep briefly,
delete the file, and return the records.  Returns the outcome, the file
state after the call, and the trace of events. -/
def thaw (file : String) (st : Option (List Nat)) :
    Except Err (List Nat) × Option (List Nat) × List TEv :=
  match st with
  | none =>
    -- portalocker.Lock(file, "rb+") cannot open a missing file.
    (Except.error (Err.fileNotFound file), none, [])
  | some bs =>
    match decodeRecords bs with
    | none =>
      -- pickle.load raises inside the with block: the lock is released and
      -- the exception propagates before the scramble write happens.
      (Except.error Err.unpicklingError, some bs, [TEv.acquire, TEv.release])
    | some rs =>
      (Except.ok rs, none,
        [TEv.acquire, TEv.load rs, TEv.scramble (scrambleBytes bs),
         TEv.release, TEv.delay, TEv.remove])

/-! ### Round-trip and scramble lemmas -/

theorem decNat_encNat (n : Nat) (t : List Nat) :
    decNat (encNat n ++ t) = some (n, t) := by
  induction n with
  | zero => rfl
  | succ n ih => simp [encNat, decNat, ih]

theorem decodeBody_encoded (rs : List Nat) (t : List Nat) :
    decodeBody rs.length ((rs.map encNat).flatten ++ t) = some rs := by
  induction rs with
  | nil => rfl
  | cons r rest ih =>
    simp only [List.map_cons, List.flatten, List.length_cons, List.append_assoc]
    simp [decodeBody, decNat_encNat, ih]

theorem decodeRecords_encodeRecords (rs : List Nat) :
    decodeRecords (encodeRecords rs) = some rs := by
  have h : decodeBody rs.length ((rs.map encNat).flatten ++ []) = some rs :=
    decodeBody_encoded rs []
  simp only [List.append_nil] at h
  simp [decodeRecords, encodeRecords, List.take, List.drop, decNat_encNat, h]

theorem encodeRecords_ne_nil (rs : List Nat) : encodeRecords rs ≠ [] := by
  simp [encodeRecords]

/-- The sentinel does not start with the pickle protocol header, so any
content beginning with it fails deserialization. -/
theorem decodeRecords_scramble (bs : List Nat) :
    decodeRecords (scrambleBytes bs) = none := by
  have hs : sentinelBytes = 97 :: 108 :: (sentinelBytes.drop 2) := by decide
  have hlen : (scrambleBytes bs).take 2 = [97, 108] := by
    rw [scrambleBytes, hs]
    rfl
  rw [decodeRecords, hlen]
  simp

theorem freezeAll_encoded (rs : List Nat) (file : String) (acc : List Nat) :
    freezeAll rs file (some (encodeRecords acc)) =
      (Except.ok (), some (encodeRecords (acc ++ rs))) := by
  induction rs generalizing acc with
  | nil => simp [freezeAll]
  | cons r rest ih =>
    rw [freezeAll, freeze]
    simp only [Option.getD_some, if_neg (encodeRecords_ne_nil acc),
      decodeRecords_encodeRecords]
    rw [ih (acc ++ [r])]
    simp

/-! ### Claims about the locked append file -/

/-- Claim C1: for every nonempty sequence of records appended by successive
successful `Data.freeze` calls on the same file, starting from an absent or
an empty file, a subsequent `thaw` on that file returns exactly those
records in append order, and after `thaw` completes the file no longer
exists. -/
theorem freeze_thaw_roundtrip (r : Nat) (rest : List Nat) (file : String) :
    freezeAll (r :: rest) file none = (Except.ok (), some (encodeRecords (r :: rest)))
    ∧ freezeAll (r :: rest) file (some []) = (Except.ok (), some (encodeRecords (r :: rest)))
    ∧ thaw file (some (encodeRecords (r :: rest))) =
        (Except.ok (r :: rest), none,
          [TEv.acquire, TEv.load (r :: rest),
           TEv.scramble (scrambleBytes (encodeRecords (r :: rest))),
           TEv.release, TEv.delay, TEv.remove]) := by
  have hfirstN : freezeAll (r :: rest) file none =
      (Except.ok (), some (encodeRecords ([r] ++ rest))) := by
    rw [freezeAll, freeze]
    simp only [Option.getD_none, if_pos rfl]
    exact freezeAll_encoded rest file [r]
  have hfirstE : freezeAll (r :: rest) file (some []) =
      (Except.ok (), some (encodeRecords ([r] ++ rest))) := by
    rw [freezeAll, freeze]
    simp only [Option.getD_some, if_pos rfl]
    exact freezeAll_encoded rest file [r]
  refine ⟨by simpa using hfirstN, by simpa using hfirstE, ?_⟩
  rw [thaw, decodeRecords_encodeRecords]

/-- Claim C2: `thaw`, before deleting the file, overwrites its bytes with
the fixed sentinel (an event that happens before the lock is released),
then deletes the file after the grace delay that elapses outside the lock
— the success trace is exactly acquire, load, scramble, release, delay,
remove.  And for every file whose contents are the post-drain scrambled
bytes, a further `thaw` fails with the deserialization error, leaving the
file in place and returning no (empty or partial) sequence. -/
theorem thaw_scramble_protocol (rs : List Nat) (file : String) :
    thaw file (some (encodeRecords rs)) =
      (Except.ok rs, none,
        [TEv.acquire, TEv.load rs, TEv.scramble (scrambleBytes (encodeRecords rs)),
         TEv.release, TEv.delay, TEv.remove])
    ∧ thaw file (some (scrambleBytes (encodeRecords rs))) =
        (Except.error Err.unpicklingError, some (scrambleBytes (encodeRecords rs)),
          [TEv.acquire, TEv.release]) := by
  constructor
  · rw [thaw, decodeRecords_encodeRecords]
  · rw [thaw, decodeRecords_scramble]

/-- Claim C3: `Data.freeze` on a non-empty file whose contents do not
deserialize fails with the corrupt-store error carrying the file name and
the underlying cause, and the file contents are not overwritten (the
truncate-and-rewrite step is never reached). -/
theorem freeze_corrupt_no_overwrite (r : Nat) (file : String) (bs : List Nat)
    (hne : bs ≠ []) (hbad : decodeRecords bs = none) :
    freeze r file (some bs) =
      (Except.error (Err.corruptStore file "unpickling failed"), some bs) := by
  rw [freeze]
  simp only [Option.getD_some, if_neg hne, hbad]

/-- Witness for `freeze_corrupt_no_overwrite` at the concrete byte string
`[97]` (which is nonempty and fails deserialization). -/
theorem freeze_corrupt_no_overwrite_witness :
    ([97] ≠ ([] : List Nat)) ∧ decodeRecords [97] = none ∧
      freeze 5 "artifacts.pickle" (some [97]) =
        (Except.error (Err.corruptStore "artifacts.pickle" "unpickling failed"), some [97]) :=
  ⟨by decide, by decide,
    freeze_corrupt_no_overwrite 5 "artifacts.pickle" [97] (by decide) (by decide)⟩

/-! ## The artifact / packaging / transmission pipeline

The filesystem is an explicit state: a list of existing directories and a
list of files with their contents.  Paths are lists of components.
Manifest contents are JSON objects, modelled as ordered key/value lists
with Python-dict update semantics (last writer wins per key, insertion
order kept). -/

/-- A filesystem path, as a list of components. -/
abbrev FPath := List String

/-- A JSON value (the shapes this module writes). -/
inductive JVal
  | jb (b : Bool)
  | js (s : String)
  | jl (xs : List String)
deriving DecidableEq, Repr

/-- `d[k] = v` with Python-dict semantics: replace in place if the key
exists, append otherwise. -/
def dictSet (k : String) (v : JVal) (d : List (String × JVal)) : List (String × JVal) :=
  if d.any (fun kv => decide (kv.1 = k)) then
    d.map (fun kv => if kv.1 = k then (k, v) else kv)
  else d ++ [(k, v)]

/-- `d.update(upd)`: merge every key of `upd` into `d`, last writer wins. -/
def dictMerge (upd : List (String × JVal)) (d : List (String × JVal)) : List (String × JVal) :=
  upd.foldl (fun acc kv => dictSet kv.1 kv.2 acc) d

/-- `d.get(k)`. -/
def dictGet (k : String) (d : List (String × JVal)) : Option JVal :=
  (d.find? (fun kv => decide (kv.1 = k))).map (fun kv => kv.2)

/-- Contents of a file on the filesystem. -/
inductive FData
  /-- a JSON manifest written with `json.dump` -/
  | jsonData (kvs : List (String × JVal))
  /-- plain text written by a producer -/
  | textData (s : String)
  /-- a gzip tarball of the directory tree rooted at the given path -/
  | tarMark (src : FPath)
deriving DecidableEq, Repr

/-- The filesystem state. -/
structure FS where
  dirs : List FPath
  files : List (FPath × FData)
deriving DecidableEq, Repr

/-- `leadsTo p q`: `p` is a (possibly equal) leading portion of the path `q`. -/
def leadsTo : FPath → FPath → Bool
  | [], _ => true
  | _ :: _, [] => false
  | a :: as, b :: bs => decide (a = b) && leadsTo as bs

/-- The proper leading sub-paths of `p` (what `mkdir(parents=True)` may
have to create first). -/
def ancestors (p : FPath) : List FPath :=
  (List.range p.length).map (fun k => p.take k)

/-- Does anything (directory or file) exist at `p`? -/
def FS.existsPath (fs : FS) (p : FPath) : Bool :=
  fs.dirs.any (fun q => decide (q = p)) || fs.files.any (fun q => decide (q.1 = p))

/-- `pathlib.Path.mkdir(exist_ok=False, parents=True)`: fail if the path
is occupied, otherwise create it together with its missing parents. -/
def FS.mkdirParents (fs : FS) (p : FPath) : Except Err FS :=
  if fs.existsPath p then Except.error (Err.fileExists p)
  else Except.ok
    { fs with dirs :=
        fs.dirs ++ (ancestors p).filter (fun q => ¬ fs.dirs.any (fun d => decide (d = q))) ++ [p] }

/-- `open(p, "w")` + write: create or overwrite. -/
def FS.writeFileOver (fs : FS) (p : FPath) (d : FData) : FS :=
  if fs.files.any (fun q => decide (q.1 = p)) then
    { fs with files := fs.files.map (fun q => if q.1 = p then (p, d) else q) }
  else { fs with files := fs.files ++ [(p, d)] }

/-- `open(p, "x")` + write: exclusive create, failing if the path is occupied. -/
def FS.createFile (fs : FS) (p : FPath) (d : FData) : Except Err FS :=
  if fs.existsPath p then Except.error (Err.fileExists p)
  else Except.ok { fs with files := fs.files ++ [(p, d)] }

/-- `os.remove(p)`: delete a file, failing if it does not exist. -/
def FS.removeFile (fs : FS) (p : FPath) : Except Err FS :=
  if fs.files.any (fun q => decide (q.1 = p)) then
    Except.ok { fs with files := fs.files.filter (fun q => ¬ q.1 = p) }
  else Except.error (Err.fileNotFound (String.intercalate "/" p))

/-- `shutil.rmtree(p)`: recursively delete the tree rooted at `p`. -/
def rmtree (p : FPath) (fs : FS) : FS :=
  { dirs := fs.dirs.filter (fun q => ¬ leadsTo p q),
    files := fs.files.filter (fun q => ¬ leadsTo p q.1) }

/-- The in-memory `Artifact` object.  `priv` and `wl` are the
`_private` / `_whitelist` state inherited from `RestrictAccess`; `json`
is the `ArtifactJson` mapping; `remotePath` is the `remote_path`
attribute assigned by `Beam.fire`.  (The constructor also sets an unused
`_json = {}` attribute, irrelevant to behaviour and omitted here.) -/
structure Artifact where
  path : FPath
  priv : Bool
  wl : List String
  json : List (String × JVal)
  remotePath : Option String := none
deriving DecidableEq, Repr

/-- `Artifact.__init__(path)`: `mkdir(exist_ok=False, parents=True)` the
directory — failing with the already-exists error if the path is occupied
— then start public with an empty whitelist and empty metadata. -/
def Artifact.create (p : FPath) (fs : FS) : Except Err Artifact × FS :=
  match fs.mkdirParents p with
  | Except.error e => (Except.error e, fs)
  | Except.ok fs' => (Except.ok { path := p, priv := false, wl := [], json := [] }, fs')

/-- `Artifact.id`: the last component of the directory path. -/
def Artifact.idOf (a : Artifact) : String :=
  (a.path.getLast?).getD ""

/-- `RestrictAccess.make_private`. -/
def Artifact.makePrivate (a : Artifact) : Artifact :=
  { a with priv := true }

/-- `RestrictAccess.grant_access(whitelist)`: a usage error unless the
object was made private first; otherwise `set.update` (union). -/
def Artifact.grantAccess (a : Artifact) (ids : List String) : Except Err Artifact :=
  if ¬ a.priv then
    Except.error (Err.runtimeError "Cannot grant access on public object, make private first.")
  else
    Except.ok { a with wl := a.wl ++ ids.filter (fun x => ¬ a.wl.any (fun y => decide (y = x))) }

/-- `ArtifactJson.__call__(dict)`: deep-copy and merge into the metadata. -/
def Artifact.mergeJson (a : Artifact) (kvs : List (String × JVal)) : Artifact :=
  { a with json := dictMerge kvs a.json }

/-- `Artifact.finalize`: set `json["public_access"]`, then — when private
with a non-empty whitelist — evaluate `list(self.whitelist)`.  The class
only defines `_whitelist`; `whitelist` does not exist, so that branch
raises `AttributeError` before the manifest is written.  Otherwise write
`artifact.json`. -/
def Artifact.finalize (a : Artifact) (fs : FS) : Except Err Artifact × FS :=
  let a' := { a with json := dictSet "public_access" (JVal.jb (¬ a.priv)) a.json }
  if a'.priv && ¬ a'.wl.isEmpty then
    (Except.error (Err.attributeError "Artifact" "whitelist"), fs)
  else
    (Except.ok a', fs.writeFileOver (a'.path ++ ["artifact.json"]) (FData.jsonData a'.json))

/-- What a producer's `pack(artifact)` override may do to its artifact. -/
inductive PackAction
  /-- `artifact.json({...})`: merge metadata -/
  | mergeJson (kvs : List (String × JVal))
  /-- `with artifact.open(name) as fh: fh.write(content)` (exclusive create) -/
  | writeFile (name : String) (content : String)
deriving DecidableEq, Repr

/-- A `Data` producer object: `hook = some acts` when the subclass
overrides `pack`, `none` when the base-class default runs; `artifact` is
the attribute set by `artificer`. -/
structure Producer where
  hook : Option (List PackAction)
  artifact : Option Artifact := none
deriving DecidableEq, Repr

/-- The base-class `Data.pack`: its first statement is
`warnings.warn(...)`, but the module never imports `warnings`, so the
call raises `NameError` before the `not_implemented` metadata or the
companion `err.txt` file can be produced. -/
def defaultPack (a : Artifact) (fs : FS) : Except Err Artifact × FS :=
  (Except.error (Err.nameError "warnings"), fs)

/-- Run an overriding `pack` hook: a sequence of metadata merges and
exclusive-create file writes under the artifact directory. -/
def runActions (acts : List PackAction) (a : Artifact) (fs : FS) : Except Err Artifact × FS :=
  match acts with
  | [] => (Except.ok a, fs)
  | PackAction.mergeJson kvs :: rest => runActions rest (a.mergeJson kvs) fs
  | PackAction.writeFile n c :: rest =>
    match fs.createFile (a.path ++ [n]) (FData.textData c) with
    | Except.error e => (Except.error e, fs)
    | Except.ok fs' => runActions rest a fs'

/-- `datum.pack(artifact)`: dispatch to the override or the default. -/
def Producer.pack (d : Producer) (a : Artifact) (fs : FS) : Except Err Artifact × FS :=
  match d.hook with
  | none => defaultPack a fs
  | some acts => runActions acts a fs

/-- The loop body of `artificer`: for each producer, in order, construct
the artifact at `<staging>/<index>`, run the producer's pack hook,
finalize, and attach the artifact to the producer. -/
def packAll : List Producer → FPath → Nat → FS → Except Err (List Producer) × FS
  | [], _, _, fs => (Except.ok [], fs)
  | d :: ds, staging, i, fs =>
    match Artifact.create (staging ++ [toString i]) fs with
    | (Except.error e, fs') => (Except.error e, fs')
    | (Except.ok a, fs') =>
      match Producer.pack d a fs' with
      | (Except.error e, fs2) => (Except.error e, fs2)
      | (Except.ok a2, fs2) =>
        match Artifact.finalize a2 fs2 with
        | (Except.error e, fs3) => (Except.error e, fs3)
        | (Except.ok a3, fs3) =>
          match packAll ds staging (i + 1) fs3 with
          | (Except.error e, fs4) => (Except.error e, fs4)
          | (Except.ok outs, fs4) => (Except.ok ({ d with artifact := some a3 } :: outs), fs4)

/-- The in-memory `Beam` object returned by `artificer`. -/
structure Beam where
  priv : Bool
  wl : List String
  data : List Producer
  archive : FPath
deriving DecidableEq, Repr

/-- Steps 1–3 of `artificer`: create the staging directory
`<base>/<id>` (propagating the already-exists failure), write
`toplevel.json` with the batch metadata, and pack every producer in input
order.  The batch id, minted by `uuid.uuid4()` in the source, is passed
in explicitly. -/
def packPhase (data : List Producer) (base : FPath) (id : String)
    (meta : List (String × JVal)) (fs : FS) : Except Err (List Producer) × FS :=
  match fs.mkdirParents (base ++ [id]) with
  | Except.error e => (Except.error e, fs)
  | Except.ok fsA =>
    packAll data (base ++ [id])  0
      (fsA.writeFileOver (base ++ [id] ++ ["toplevel.json"]) (FData.jsonData meta))

/-- `artificer(data, path, meta)`: pack phase, then create the gzip tar
archive `<base>/<id>.tar.gz` of the staging directory, then
`shutil.rmtree` the staging directory, then return the `Beam`.  The
outcome of the external `tarfile` calls is passed in as `tarOk`; when
archive creation raises, the `rmtree` is never reached. -/
def artificer (data : List Producer) (base : FPath) (id : String)
    (meta : List (String × JVal)) (tarOk : Bool) (fs : FS) : Except Err Beam × FS :=
  match packPhase data base id meta fs with
  | (Except.error e, fs') => (Except.error e, fs')
  | (Except.ok outs, fs') =>
    if tarOk then
      let fs2 := fs'.writeFileOver (base ++ [id ++ ".tar.gz"]) (FData.tarMark (base ++ [id]))
      (Except.ok { priv := false, wl := [], data := outs, archive := base ++ [id ++ ".tar.gz"] },
        rmtree (base ++ [id]) fs2)
    else
      (Except.error Err.tarCreationFailed, fs')

/-! ### Transmission (`Beam.fire`)

The HTTP POST is an external collaborator: its outcome — a response with
a status and body, or an `SSLError` from the transport — is passed in as
a parameter.  `os.path` string manipulation is modelled faithfully. -/

/-- `os.path.join(a, b)` for POSIX paths. -/
def ospJoin (a b : String) : String :=
  if b.startsWith "/" then b
  else if a = "" || a.endsWith "/" then a ++ b
  else a ++ "/" ++ b

/-- `s[:-1]`. -/
def strInit (s : String) : String :=
  String.mk s.toList.dropLast

/-- `os.path.dirname(s)` for POSIX paths: everything up to the last slash,
with trailing slashes stripped unless the head is all slashes. -/
def ospDirname (s : String) : String :=
  let head := ((s.toList.reverse.dropWhile (fun c => ¬ c = '/')).reverse)
  if head.isEmpty || head.all (fun c => c = '/') then String.mk head
  else String.mk ((head.reverse.dropWhile (fun c => c = '/')).reverse)

/-- Is `needle` a leading piece of `hay`? -/
def charsLead : List Char → List Char → Bool
  | [], _ => true
  | _ :: _, [] => false
  | a :: as, b :: bs => decide (a = b) && charsLead as bs

/-- Substring containment on the underlying character lists
(`needle in hay` on Python strings). -/
def strHasSub (hay needle : String) : Bool :=
  go hay.toList needle.toList
where
  go : List Char → List Char → Bool
  | [], needle => needle.isEmpty
  | h :: t, needle => charsLead needle (h :: t) || go t needle

/-- The body of an HTTP response, classified by how `json.loads` and the
subsequent `["id"]` subscript behave on it. -/
inductive RespBody
  /-- parses as JSON with an `id` field of the given value -/
  | jsonId (id : String) (raw : String)
  /-- parses as JSON but has no `id` field -/
  | jsonNoId (raw : String)
  /-- `json.loads` raises -/
  | badJson (raw : String)
deriving DecidableEq, Repr

/-- The raw text of a response body. -/
def bodyRaw : RespBody → String
  | RespBody.jsonId _ raw => raw
  | RespBody.jsonNoId raw => raw
  | RespBody.badJson raw => raw

/-- Outcome of the `requests.post` call. -/
inductive PostOutcome
  /-- the request completed with the given status and body -/
  | resp (status : Nat) (body : RespBody)
  /-- the transport raised `requests.exceptions.SSLError` with this message -/
  | sslErr (msg : String)
deriving DecidableEq, Repr

/-- `POST` endpoint `os.path.join(host, "beam", "receive") + "/"`. -/
def receiveEndpoint (host : String) : String :=
  ospJoin (ospJoin host "beam") "receive" ++ "/"

/-- The emit endpoint computed after a successful transmission:
`os.path.join(os.path.dirname(host[:-1]), endpoint, "emit")`. -/
def emitEndpoint (host : String) : String :=
  ospJoin (ospJoin (ospDirname (strInit host)) (receiveEndpoint host)) "emit"

/-- The loop `for i, datum in enumerate(self.data): datum.artifact.remote_path = ...`:
stamp each producer's artifact with the remote locator at its index.  A
producer whose `artifact` attribute is still `None` makes the assignment
raise `AttributeError`. -/
def stampAll : List Producer → String → Nat → Except Err (List Producer)
  | [], _, _ => Except.ok []
  | d :: ds, pre, i =>
    match d.artifact with
    | none => Except.error (Err.attributeError "NoneType" "remote_path")
    | some a =>
      match stampAll ds pre (i + 1) with
      | Except.error e => Except.error e
      | Except.ok outs =>
        Except.ok
          ({ d with artifact := some { a with remotePath := some (ospJoin pre (toString i)) } }
            :: outs)

/-- `Beam.fire(host, launch_codes, debug, fire_at_strangers)`.

On an `SSLError` whose message mentions `CERTIFICATE_VERIFY_FAILED` the
distinguished `IntruderAlert` is raised; on any other `SSLError` the
`except` clause falls through without re-raising, and the next statement
`response.status_code` raises `UnboundLocalError` because `response` was
never assigned.  On a 200 response the local archive is removed (unless
`debug`), the body is parsed as JSON (failure surfaces the raw body), the
remote id is read out (a missing key raises `KeyError`), and every
producer's artifact is stamped with the remote locator at its index.  On
any other status, `BeamError` carries the raw body and nothing is
deleted.  Returns the stamped producers and the remote id, plus the
filesystem. -/
def Beam.fire (b : Beam) (host : String) (post : PostOutcome) (debug : Bool) (fs : FS) :
    Except Err (List Producer × String) × FS :=
  match post with
  | PostOutcome.sslErr msg =>
    if strHasSub msg "CERTIFICATE_VERIFY_FAILED" then
      (Except.error Err.intruderAlert, fs)
    else
      (Except.error (Err.unboundLocal "response"), fs)
  | PostOutcome.resp status body =>
    if status = 200 then
      match (if debug then Except.ok fs else fs.removeFile b.archive) with
      | Except.error e => (Except.error e, fs)
      | Except.ok fs' =>
        match body with
        | RespBody.badJson raw => (Except.error (Err.beamInvalidJson raw status), fs')
        | RespBody.jsonNoId _ => (Except.error (Err.keyError "id"), fs')
        | RespBody.jsonId theId _ =>
          match stampAll b.data (ospJoin (emitEndpoint host) theId) 0 with
          | Except.error e => (Except.error e, fs')
          | Except.ok outs => (Except.ok (outs, theId), fs')
    else
      (Except.error (Err.beamError (bodyRaw body) status), fs)

/-! ### Claims about packaging and transmission -/

/-- Claim C4 (code bug): the claim says a producer that does not override
the packing hook is a soft failure — `not_implemented` manifest plus a
companion file — and the batch still completes.  In the code, the default
`Data.pack` begins with `warnings.warn(...)` but the module never imports
`warnings`, so the call raises `NameError` and aborts the whole batch.
Evaluated here on a batch of one well-behaved producer followed by one
defaulted producer: `artificer` fails with the `NameError` instead of
completing. -/
theorem artificer_default_pack_is_fatal :
    (artificer [{ hook := some [], artifact := none }, { hook := none, artifact := none }]
        ["dest"] "b1" [] true { dirs := [], files := [] }).1
      = Except.error (Err.nameError "warnings") := rfl

/-- Claim C5 (code bug): `grant_access` before `make_private` does raise
the usage error leaving the whitelist untouched, and `make_private` then
`grant_access({"alice"})` does record the whitelist — but `finalize` then
evaluates `list(self.whitelist)`, an attribute that does not exist (the
field is `_whitelist`), so it raises `AttributeError` instead of writing
the manifest with `public_access: false` and `access_list: ["alice"]`. -/
theorem grant_finalize_attribute_bug :
    (Artifact.grantAccess { path := ["a"], priv := false, wl := [], json := [] } ["alice"]
        = Except.error (Err.runtimeError "Cannot grant access on public object, make private first."))
    ∧ (Artifact.grantAccess
          (Artifact.makePrivate { path := ["a"], priv := false, wl := [], json := [] }) ["alice"]
        = Except.ok { path := ["a"], priv := true, wl := ["alice"], json := [] })
    ∧ (Artifact.finalize { path := ["a"], priv := true, wl := ["alice"], json := [] }
          { dirs := [["a"]], files := [] }
        = (Except.error (Err.attributeError "Artifact" "whitelist"),
            { dirs := [["a"]], files := [] })) :=
  ⟨rfl, rfl, rfl⟩

/-- Claim C9: constructing an `Artifact` at an occupied path fails with
the already-exists error without touching the filesystem, and `artificer`
fails fatally (the error propagates, nothing is written) when the staging
directory `<base>/<id>` already exists. -/
theorem path_collision_errors (p : FPath) (fs : FS) (data : List Producer) (base : FPath)
    (id : String) (meta : List (String × JVal)) (tarOk : Bool)
    (h1 : p ∈ fs.dirs) (h2 : (base ++ [id]) ∈ fs.dirs) :
    Artifact.create p fs = (Except.error (Err.fileExists p), fs)
    ∧ artificer data base id meta tarOk fs
        = (Except.error (Err.fileExists (base ++ [id])), fs) := by
  have hex : ∀ q ∈ fs.dirs, fs.existsPath q = true := by
    intro q hq
    simp only [FS.existsPath, Bool.or_eq_true, List.any_eq_true]
    exact Or.inl ⟨q, hq, by simp⟩
  constructor
  · rw [Artifact.create, FS.mkdirParents, if_pos (hex p h1)]
  · rw [artificer, packPhase, FS.mkdirParents, if_pos (hex _ h2)]

/-- Witness for `path_collision_errors` on a concrete filesystem that
already contains both the artifact path and the staging path. -/
theorem path_collision_errors_witness :
    (["x"] ∈ (FS.mk [["x"], ["dest", "b1"]] []).dirs)
    ∧ ((["dest"] ++ ["b1"]) ∈ (FS.mk [["x"], ["dest", "b1"]] []).dirs)
    ∧ (Artifact.create ["x"] (FS.mk [["x"], ["dest", "b1"]] [])
          = (Except.error (Err.fileExists ["x"]), FS.mk [["x"], ["dest", "b1"]] [])
        ∧ artificer [] ["dest"] "b1" [] true (FS.mk [["x"], ["dest", "b1"]] [])
          = (Except.error (Err.fileExists (["dest"] ++ ["b1"])), FS.mk [["x"], ["dest", "b1"]] [])) :=
  ⟨by simp, by simp,
    path_collision_errors ["x"] (FS.mk [["x"], ["dest", "b1"]] []) [] ["dest"] "b1" [] true
      (by simp) (by simp)⟩

/-- Claim C10: when the HTTP POST raises an `SSLError` whose message does
not contain `CERTIFICATE_VERIFY_FAILED`, the `except` clause swallows it:
neither the transport error nor `IntruderAlert` is raised, and execution
falls through to the status check where the never-assigned `response`
variable raises `UnboundLocalError`. -/
theorem fire_ssl_swallowed (b : Beam) (host : String) (fs : FS) (msg : String) (debug : Bool)
    (h : strHasSub msg "CERTIFICATE_VERIFY_FAILED" = false) :
    Beam.fire b host (PostOutcome.sslErr msg) debug fs
        = (Except.error (Err.unboundLocal "response"), fs)
    ∧ Err.unboundLocal "response" ≠ Err.intruderAlert := by
  refine ⟨?_, by simp⟩
  rw [Beam.fire, h]
  simp

/-- Witness for `fire_ssl_swallowed` on a concrete non-certificate
`SSLError` message. -/
theorem fire_ssl_swallowed_witness :
    (strHasSub "handshake failure" "CERTIFICATE_VERIFY_FAILED" = false)
    ∧ (Beam.fire { priv := false, wl := [], data := [], archive := ["a.tar.gz"] }
          "https://h.org/" (PostOutcome.sslErr "handshake failure") false (FS.mk [] [])
        = (Except.error (Err.unboundLocal "response"), FS.mk [] [])
      ∧ Err.unboundLocal "response" ≠ Err.intruderAlert) :=
  ⟨rfl, fire_ssl_swallowed _ "https://h.org/" (FS.mk [] []) "handshake failure" false rfl⟩

/-! ### Filesystem bookkeeping lemmas -/

theorem writeFileOver_dirs (fs : FS) (p : FPath) (d : FData) :
    (fs.writeFileOver p d).dirs = fs.dirs := by
  rw [FS.writeFileOver]
  split <;> rfl

theorem createFile_ok_dirs (fs : FS) (p : FPath) (d : FData) (fs' : FS)
    (h : fs.createFile p d = Except.ok fs') : fs'.dirs = fs.dirs := by
  rw [FS.createFile] at h
  split at h
  · exact absurd h (by simp)
  · cases h
    rfl

theorem finalize_dirs (a : Artifact) (fs : FS) :
    ((Artifact.finalize a fs).2).dirs = fs.dirs := by
  rw [Artifact.finalize]
  split
  · rfl
  · exact writeFileOver_dirs ..

theorem runActions_dirs (acts : List PackAction) :
    ∀ (a : Artifact) (fs : FS), ((runActions acts a fs).2).dirs = fs.dirs := by
  induction acts with
  | nil => intro a fs; rfl
  | cons act rest ih =>
    intro a fs
    cases act with
    | mergeJson kvs => exact ih _ _
    | writeFile n c =>
      rw [runActions]
      cases h : fs.createFile (a.path ++ [n]) (FData.textData c) with
      | error e => rfl
      | ok fs' =>
        simp only []
        rw [ih a fs', createFile_ok_dirs fs _ _ fs' h]

theorem pack_dirs (d : Producer) (a : Artifact) (fs : FS) :
    ((Producer.pack d a fs).2).dirs = fs.dirs := by
  rw [Producer.pack]
  cases d.hook with
  | none => rfl
  | some acts => exact runActions_dirs acts a fs

theorem mkdirParents_ok_dirs (fs : FS) (p : FPath) (fs' : FS)
    (h : fs.mkdirParents p = Except.ok fs') :
    ∀ q, q ∈ fs'.dirs ↔ q ∈ fs.dirs ∨ q ∈ ancestors p ∨ q = p := by
  rw [FS.mkdirParents] at h
  split at h
  · exact absurd h (by simp)
  · cases h
    intro q
    simp only [List.mem_append, List.mem_filter, List.mem_singleton]
    constructor
    · rintro ((hq | ⟨hq, _⟩) | hq)
      · exact Or.inl hq
      · exact Or.inr (Or.inl hq)
      · exact Or.inr (Or.inr hq)
    · rintro (hq | hq | hq)
      · exact Or.inl (Or.inl hq)
      · by_cases hd : fs.dirs.any (fun d => decide (d = q)) = true
        · rcases List.any_eq_true.mp hd with ⟨x, hx, he⟩
          simp only [decide_eq_true_eq] at he
          exact Or.inl (Or.inl (he ▸ hx))
        · exact Or.inl (Or.inr ⟨hq, by simpa using hd⟩)
      · exact Or.inr hq

theorem mkdirParents_ok_files (fs : FS) (p : FPath) (fs' : FS)
    (h : fs.mkdirParents p = Except.ok fs') : fs'.files = fs.files := by
  rw [FS.mkdirParents] at h
  split at h
  · exact absurd h (by simp)
  · cases h
    rfl

theorem create_res_dirs_mono (p : FPath) (fs : FS) (r : Except Err Artifact) (fs' : FS)
    (h : Artifact.create p fs = (r, fs')) (q : FPath) (hq : q ∈ fs.dirs) : q ∈ fs'.dirs := by
  rw [Artifact.create] at h
  split at h
  · cases h
    exact hq
  · rename_i fsA hm
    obtain ⟨h1, h2⟩ := Prod.mk.inj h
    rw [← h2]
    exact (mkdirParents_ok_dirs fs p fsA hm q).mpr (Or.inl hq)

theorem pack_res_dirs (d : Producer) (a : Artifact) (fs : FS) (r : Except Err Artifact)
    (fs' : FS) (h : Producer.pack d a fs = (r, fs')) : fs'.dirs = fs.dirs := by
  have := pack_dirs d a fs
  rwa [h] at this

theorem finalize_res_dirs (a : Artifact) (fs : FS) (r : Except Err Artifact) (fs' : FS)
    (h : Artifact.finalize a fs = (r, fs')) : fs'.dirs = fs.dirs := by
  have := finalize_dirs a fs
  rwa [h] at this

theorem packAll_dirs_mono (ds : List Producer) (staging : FPath) :
    ∀ (i : Nat) (fs : FS) (q : FPath), q ∈ fs.dirs → q ∈ (packAll ds staging i fs).2.dirs := by
  induction ds with
  | nil => intro i fs q hq; simpa [packAll] using hq
  | cons d rest ih =>
    intro i fs q hq
    rw [packAll]
    split
    · rename_i e fs1 heq
      exact create_res_dirs_mono _ _ _ _ heq q hq
    · rename_i a fs1 heq
      have hq1 : q ∈ fs1.dirs := create_res_dirs_mono _ _ _ _ heq q hq
      split
      · rename_i e fs2 hp
        simpa [pack_res_dirs d a fs1 _ fs2 hp] using hq1
      · rename_i a2 fs2 hp
        have hq2 : q ∈ fs2.dirs := by
          rw [pack_res_dirs d a fs1 _ fs2 hp]
          exact hq1
        split
        · rename_i e fs3 hf
          simpa [finalize_res_dirs a2 fs2 _ fs3 hf] using hq2
        · rename_i a3 fs3 hf
          have hq3 : q ∈ fs3.dirs := by
            rw [finalize_res_dirs a2 fs2 _ fs3 hf]
            exact hq2
          split
          · rename_i e fs4 hr
            have := ih (i + 1) fs3 q hq3
            rw [hr] at this
            simpa using this
          · rename_i outs fs4 hr
            have := ih (i + 1) fs3 q hq3
            rw [hr] at this
            simpa using this

theorem packPhase_staging_mem (data : List Producer) (base : FPath) (id : String)
    (meta : List (String × JVal)) (fs : FS) (outs : List Producer) (fs1 : FS)
    (h : packPhase data base id meta fs = (Except.ok outs, fs1)) :
    (base ++ [id]) ∈ fs1.dirs := by
  rw [packPhase] at h
  split at h
  · exact absurd h (by simp)
  · rename_i fsA hm
    have hmem : (base ++ [id]) ∈ fsA.dirs :=
      (mkdirParents_ok_dirs fs _ fsA hm _).mpr (Or.inr (Or.inr rfl))
    have hmem2 : (base ++ [id]) ∈
        (fsA.writeFileOver (base ++ [id] ++ ["toplevel.json"]) (FData.jsonData meta)).dirs := by
      rw [writeFileOver_dirs]
      exact hmem
    have := packAll_dirs_mono data (base ++ [id]) 0 _ _ hmem2
    rwa [h] at this

/-- Claim C6: in `artificer`, the staging directory is deleted only after
archive creation has completed; whenever archive creation fails, the
staging directory (with everything packed into it — the returned
filesystem is exactly the one the pack phase produced, untouched) is left
on disk. -/
theorem artificer_tar_fail_keeps_staging (data : List Producer) (base : FPath) (id : String)
    (meta : List (String × JVal)) (fs fs1 : FS) (outs : List Producer)
    (hpack : packPhase data base id meta fs = (Except.ok outs, fs1)) :
    artificer data base id meta false fs = (Except.error Err.tarCreationFailed, fs1)
    ∧ (base ++ [id]) ∈ fs1.dirs := by
  constructor
  · rw [artificer, hpack]
    rfl
  · exact packPhase_staging_mem data base id meta fs outs fs1 hpack

/-- Concrete scenario for `artificer_tar_fail_keeps_staging`: one
producer whose pack hook merges one metadata key. -/
def c6data : List Producer :=
  [{ hook := some [PackAction.mergeJson [("k", JVal.js "v")]], artifact := none }]

/-- Empty starting filesystem for the C6 witness scenario. -/
def c6fs0 : FS := { dirs := [], files := [] }

/-- The producers as packed in the C6 witness scenario. -/
def c6outs : List Producer :=
  match (packPhase c6data ["dest"] "b6" [] c6fs0).1 with
  | Except.ok o => o
  | Except.error _ => []

/-- The filesystem after the pack phase in the C6 witness scenario. -/
def c6fs1 : FS := (packPhase c6data ["dest"] "b6" [] c6fs0).2

/-- Witness for `artificer_tar_fail_keeps_staging` on the concrete C6
scenario. -/
theorem artificer_tar_fail_keeps_staging_witness :
    (packPhase c6data ["dest"] "b6" [] c6fs0 = (Except.ok c6outs, c6fs1))
    ∧ (artificer c6data ["dest"] "b6" [] false c6fs0
          = (Except.error Err.tarCreationFailed, c6fs1)
        ∧ (["dest"] ++ ["b6"]) ∈ c6fs1.dirs) :=
  ⟨rfl, artificer_tar_fail_keeps_staging c6data ["dest"] "b6" [] c6fs0 c6fs1 c6outs rfl⟩

/-! ### Transmission lemmas and Claim C8 -/

theorem stampAll_ok (ds : List Producer) (pre : String) :
    ∀ (i : Nat), (∀ d ∈ ds, d.artifact.isSome = true) →
      ∃ outs, stampAll ds pre i = Except.ok outs ∧ outs.length = ds.length ∧
        ∀ j d', outs.get? j = some d' → ∃ d a, ds.get? j = some d ∧ d.artifact = some a ∧
          d' = { d with
            artifact := some { a with remotePath := some (ospJoin pre (toString (i + j))) } } := by
  induction ds with
  | nil =>
    intro i _
    exact ⟨[], rfl, rfl, by intro j d' hj; simp at hj⟩
  | cons d rest ih =>
    intro i h
    have hd : d.artifact.isSome = true := h d (List.mem_cons_self _ _)
    cases ha : d.artifact with
    | none => rw [ha] at hd; simp at hd
    | some a =>
      obtain ⟨outs, ho, hlen, hidx⟩ :=
        ih (i + 1) (fun x hx => h x (List.mem_cons_of_mem _ hx))
      refine ⟨_, by rw [stampAll, ha, ho], by simp [hlen], ?_⟩
      intro j d' hj
      cases j with
      | zero =>
        simp only [List.get?] at hj
        injection hj with hj
        refine ⟨d, a, rfl, ha, ?_⟩
        rw [← hj]
        simp
      | succ j =>
        simp only [List.get?] at hj
        obtain ⟨d0, a0, hd0, hda0, hd'⟩ := hidx j d' hj
        refine ⟨d0, a0, hd0, hda0, ?_⟩
        rw [hd']
        have : i + 1 + j = i + (j + 1) := by omega
        rw [this]

/-- Claim C8: `Beam.fire` on a non-2xx status (500, say) leaves the local
archive untouched (the filesystem is returned unchanged) and raises the
transmission-rejected `BeamError` carrying the raw response body; on a
200 response with an `id` field, with the debug flag false, it deletes
the local archive file and writes onto every producer's artifact, in
index order, the remote locator built from that id and the producer's
index. -/
theorem beam_fire_status_handling (b : Beam) (host : String) (fs : FS)
    (status : Nat) (body : RespBody) (theId raw : String)
    (hst : status < 200 ∨ 300 ≤ status)
    (hart : ∀ d ∈ b.data, d.artifact.isSome = true) :
    (Beam.fire b host (PostOutcome.resp status body) false fs
        = (Except.error (Err.beamError (bodyRaw body) status), fs))
    ∧ (fs.files.any (fun q => decide (q.1 = b.archive)) = true →
        ∃ outs, Beam.fire b host (PostOutcome.resp 200 (RespBody.jsonId theId raw)) false fs
            = (Except.ok (outs, theId),
                { fs with files := fs.files.filter (fun q => ¬ q.1 = b.archive) })
          ∧ outs.length = b.data.length
          ∧ ∀ j d', outs.get? j = some d' →
              ∃ d a, b.data.get? j = some d ∧ d.artifact = some a ∧
                d'.artifact =
                  some { a with
                    remotePath := some (ospJoin (ospJoin (emitEndpoint host) theId) (toString j)) }) := by
  constructor
  · have hne : ¬ status = 200 := by omega
    rw [Beam.fire, if_neg hne]
  · intro harch
    obtain ⟨outs, ho, hlen, hidx⟩ :=
      stampAll_ok b.data (ospJoin (emitEndpoint host) theId) 0 hart
    refine ⟨outs, ?_, hlen, ?_⟩
    · have hrm : fs.removeFile b.archive
          = Except.ok { fs with files := fs.files.filter (fun q => ¬ q.1 = b.archive) } := by
        rw [FS.removeFile, if_pos harch]
      rw [Beam.fire]
      simp only [if_pos, Bool.false_eq_true, if_false, hrm, ho]
    · intro j d' hj
      obtain ⟨d, a, hd, hda, hd'⟩ := hidx j d' hj
      refine ⟨d, a, hd, hda, ?_⟩
      rw [hd']
      simp

/-- The one-producer `Beam` used to witness `beam_fire_status_handling`. -/
def c8beam : Beam :=
  { priv := false, wl := [],
    data := [{ hook := some [],
               artifact := some { path := ["dest", "b1", "0"], priv := false, wl := [],
                                  json := [("public_access", JVal.jb true)] } }],
    archive := ["dest", "b1.tar.gz"] }

/-- Starting filesystem for the C8 witness: the archive file exists. -/
def c8fs : FS :=
  { dirs := [], files := [(["dest", "b1.tar.gz"], FData.tarMark ["dest", "b1"])] }

/-- Witness for `beam_fire_status_handling`: a concrete 500 response and
a concrete 200 response with an id. -/
theorem beam_fire_status_handling_witness :
    ((500 < 200 ∨ 300 ≤ 500)
      ∧ (∀ d ∈ c8beam.data, d.artifact.isSome = true))
    ∧ ((Beam.fire c8beam "https://h.org/" (PostOutcome.resp 500 (RespBody.badJson "boom")) false c8fs
          = (Except.error (Err.beamError (bodyRaw (RespBody.badJson "boom")) 500), c8fs))
        ∧ (c8fs.files.any (fun q => decide (q.1 = c8beam.archive)) = true →
            ∃ outs, Beam.fire c8beam "https://h.org/"
                (PostOutcome.resp 200 (RespBody.jsonId "beam7" "ok")) false c8fs
                = (Except.ok (outs, "beam7"),
                    { c8fs with files := c8fs.files.filter (fun q => ¬ q.1 = c8beam.archive) })
              ∧ outs.length = c8beam.data.length
              ∧ ∀ j d', outs.get? j = some d' →
                  ∃ d a, c8beam.data.get? j = some d ∧ d.artifact = some a ∧
                    d'.artifact =
                      some { a with
                        remotePath := some (ospJoin (ospJoin (emitEndpoint "https://h.org/") "beam7")
                          (toString j)) })) :=
  ⟨⟨Or.inr (by omega), by decide⟩,
    beam_fire_status_handling c8beam "https://h.org/" c8fs 500 (RespBody.badJson "boom")
      "beam7" "ok" (Or.inr (by omega)) (by decide)⟩

/-! ### Staging-tree lemmas for Claim C7 -/

theorem leadsTo_iff (a : FPath) : ∀ b, leadsTo a b = true ↔ a <+: b := by
  induction a with
  | nil => intro b; simp [leadsTo]
  | cons x as ih =>
    intro b
    cases b with
    | nil => simp [leadsTo]
    | cons y bs =>
      rw [leadsTo, Bool.and_eq_true, decide_eq_true_eq, ih bs]
      exact (List.cons_prefix_cons).symm

theorem leadsTo_append_same (xs : FPath) :
    ∀ l1 l2, leadsTo (xs ++ l1) (xs ++ l2) = leadsTo l1 l2 := by
  induction xs with
  | nil => intro l1 l2; rfl
  | cons x t ih =>
    intro l1 l2
    rw [List.cons_append, List.cons_append, leadsTo]
    simp [ih]

theorem mem_ancestors_length (p q : FPath) (hq : q ∈ ancestors p) : q.length < p.length := by
  rw [ancestors] at hq
  obtain ⟨k, hk, hq'⟩ := List.mem_map.mp hq
  rw [← hq', List.length_take]
  have hk' : k < p.length := List.mem_range.mp hk
  have := Nat.min_le_left k p.length
  omega

theorem create_ok_strict (st : FPath) (s : String) (fs : FS) (a : Artifact) (fs' : FS)
    (h : Artifact.create (st ++ [s]) fs = (Except.ok a, fs')) (q : FPath)
    (hpre : st <+: q) (hne : q ≠ st) :
    (q ∈ fs'.dirs ↔ q ∈ fs.dirs ∨ q = st ++ [s]) := by
  rw [Artifact.create] at h
  split at h
  · exact absurd h (by simp)
  · rename_i fsA hm
    obtain ⟨h1, h2⟩ := Prod.mk.inj h
    rw [← h2, mkdirParents_ok_dirs fs _ fsA hm q]
    constructor
    · rintro (hq | hq | hq)
      · exact Or.inl hq
      · exfalso
        have hlt : q.length < st.length + 1 := by
          have := mem_ancestors_length (st ++ [s]) q hq
          simpa using this
        have hge : st.length ≤ q.length := hpre.length_le
        exact hne ((hpre.eq_of_length (by omega)).symm)
      · exact Or.inr hq
    · rintro (hq | hq)
      · exact Or.inl hq
      · exact Or.inr (Or.inr hq)

theorem create_ok_path (p : FPath) (fs : FS) (a : Artifact) (fs' : FS)
    (h : Artifact.create p fs = (Except.ok a, fs')) : a.path = p := by
  rw [Artifact.create] at h
  split at h
  · exact absurd h (by simp)
  · obtain ⟨h1, _⟩ := Prod.mk.inj h
    injection h1 with h1
    rw [← h1]

theorem runActions_ok_path (acts : List PackAction) :
    ∀ (a : Artifact) (fs : FS) (a2 : Artifact) (fs2 : FS),
      runActions acts a fs = (Except.ok a2, fs2) → a2.path = a.path := by
  induction acts with
  | nil =>
    intro a fs a2 fs2 h
    obtain ⟨h1, _⟩ := Prod.mk.inj h
    injection h1 with h1
    rw [← h1]
  | cons act rest ih =>
    intro a fs a2 fs2 h
    cases act with
    | mergeJson kvs =>
      rw [runActions] at h
      have := ih _ _ _ _ h
      simpa [Artifact.mergeJson] using this
    | writeFile n c =>
      rw [runActions] at h
      split at h
      · exact absurd h (by simp)
      · exact ih _ _ _ _ h

theorem pack_ok_path (d : Producer) (a : Artifact) (fs : FS) (a2 : Artifact) (fs2 : FS)
    (h : Producer.pack d a fs = (Except.ok a2, fs2)) : a2.path = a.path := by
  cases hd : d.hook with
  | none =>
    have he : Producer.pack d a fs = defaultPack a fs := by rw [Producer.pack, hd]
    rw [he] at h
    exact absurd h (by simp [defaultPack])
  | some acts =>
    have he : Producer.pack d a fs = runActions acts a fs := by rw [Producer.pack, hd]
    rw [he] at h
    exact runActions_ok_path acts _ _ _ _ h

theorem finalize_ok_path (a : Artifact) (fs : FS) (a3 : Artifact) (fs3 : FS)
    (h : Artifact.finalize a fs = (Except.ok a3, fs3)) : a3.path = a.path := by
  rw [Artifact.finalize] at h
  split at h
  · exact absurd h (by simp)
  · obtain ⟨h1, _⟩ := Prod.mk.inj h
    injection h1 with h1
    rw [← h1]

theorem packAll_strict_dirs (ds : List Producer) (st : FPath) :
    ∀ (i : Nat) (fs : FS) (outs : List Producer) (fs' : FS),
      packAll ds st i fs = (Except.ok outs, fs') →
      ∀ q, st <+: q → q ≠ st →
        (q ∈ fs'.dirs ↔ q ∈ fs.dirs ∨ ∃ j, j < ds.length ∧ q = st ++ [toString (i + j)]) := by
  induction ds with
  | nil =>
    intro i fs outs fs' h q hpre hne
    obtain ⟨h1, h2⟩ := Prod.mk.inj h
    rw [← h2]
    simp
  | cons d rest ih =>
    intro i fs outs fs' h q hpre hne
    rw [packAll] at h
    split at h
    · exact absurd h (by simp)
    · rename_i a fs1 hc
      split at h
      · exact absurd h (by simp)
      · rename_i a2 fs2 hp
        split at h
        · exact absurd h (by simp)
        · rename_i a3 fs3 hf
          split at h
          · exact absurd h (by simp)
          · rename_i outs0 fs4 hr
            obtain ⟨h1, h2⟩ := Prod.mk.inj h
            rw [← h2]
            have hstep1 := create_ok_strict st (toString i) fs a fs1 hc q hpre hne
            have hstep2 : fs2.dirs = fs1.dirs := pack_res_dirs d a fs1 _ fs2 hp
            have hstep3 : fs3.dirs = fs2.dirs := finalize_res_dirs a2 fs2 _ fs3 hf
            have hrec := ih (i + 1) fs3 outs0 fs4 hr q hpre hne
            rw [hrec, hstep3, hstep2, hstep1]
            constructor
            · rintro ((hq | hq) | ⟨j, hj, hq⟩)
              · exact Or.inl hq
              · exact Or.inr ⟨0, Nat.succ_pos _, by simpa using hq⟩
              · refine Or.inr ⟨j + 1, Nat.succ_lt_succ hj, ?_⟩
                rw [hq]
                have : i + 1 + j = i + (j + 1) := by omega
                rw [this]
            · rintro (hq | ⟨j, hj, hq⟩)
              · exact Or.inl (Or.inl hq)
              · cases j with
                | zero => exact Or.inl (Or.inr (by simpa using hq))
                | succ j =>
                  refine Or.inr ⟨j, Nat.lt_of_succ_lt_succ hj, ?_⟩
                  rw [hq]
                  have : i + 1 + j = i + (j + 1) := by omega
                  rw [this]

theorem packAll_outs (ds : List Producer) (st : FPath) :
    ∀ (i : Nat) (fs : FS) (outs : List Producer) (fs' : FS),
      packAll ds st i fs = (Except.ok outs, fs') →
      outs.length = ds.length ∧
      ∀ j d', outs.get? j = some d' → ∃ d a, ds.get? j = some d ∧ d'.hook = d.hook ∧
        d'.artifact = some a ∧ a.path = st ++ [toString (i + j)] := by
  induction ds with
  | nil =>
    intro i fs outs fs' h
    obtain ⟨h1, _⟩ := Prod.mk.inj h
    injection h1 with h1
    subst h1
    exact ⟨rfl, by intro j d' hj; simp at hj⟩
  | cons d rest ih =>
    intro i fs outs fs' h
    rw [packAll] at h
    split at h
    · exact absurd h (by simp)
    · rename_i a fs1 hc
      split at h
      · exact absurd h (by simp)
      · rename_i a2 fs2 hp
        split at h
        · exact absurd h (by simp)
        · rename_i a3 fs3 hf
          split at h
          · exact absurd h (by simp)
          · rename_i outs0 fs4 hr
            obtain ⟨h1, _⟩ := Prod.mk.inj h
            injection h1 with h1
            subst h1
            obtain ⟨hlen, hidx⟩ := ih (i + 1) fs3 outs0 fs4 hr
            refine ⟨by simp [hlen], ?_⟩
            intro j d' hj
            cases j with
            | zero =>
              simp only [List.get?] at hj
              injection hj with hj
              refine ⟨d, a3, rfl, by rw [← hj], by rw [← hj], ?_⟩
              have hpa : a3.path = a2.path := finalize_ok_path a2 fs2 a3 fs3 hf
              have hpb : a2.path = a.path := pack_ok_path d a fs1 a2 fs2 hp
              have hpc : a.path = st ++ [toString i] := create_ok_path _ fs a fs1 hc
              rw [hpa, hpb, hpc]
              simp
            | succ j =>
              simp only [List.get?] at hj
              obtain ⟨d0, a0, hd0, hh, ha0, hp0⟩ := hidx j d' hj
              refine ⟨d0, a0, hd0, hh, ha0, ?_⟩
              rw [hp0]
              have : i + 1 + j = i + (j + 1) := by omega
              rw [this]

theorem packPhase_strict_dirs (data : List Producer) (base : FPath) (id : String)
    (meta : List (String × JVal)) (fs : FS) (outs : List Producer) (fs1 : FS)
    (h : packPhase data base id meta fs = (Except.ok outs, fs1)) :
    ∀ q, (base ++ [id]) <+: q → q ≠ (base ++ [id]) →
      (q ∈ fs1.dirs ↔ q ∈ fs.dirs ∨ ∃ j, j < data.length ∧ q = (base ++ [id]) ++ [toString j]) := by
  rw [packPhase] at h
  split at h
  · exact absurd h (by simp)
  · rename_i fsA hm
    intro q hpre hne
    have h1 := packAll_strict_dirs data (base ++ [id]) 0 _ outs fs1 h q hpre hne
    have hB : q ∈ ((fsA.writeFileOver (base ++ [id] ++ ["toplevel.json"])
        (FData.jsonData meta)).dirs) ↔ q ∈ fs.dirs := by
      rw [writeFileOver_dirs, mkdirParents_ok_dirs fs _ fsA hm q]
      constructor
      · rintro (hq | hq | hq)
        · exact hq
        · exfalso
          have hlt := mem_ancestors_length (base ++ [id]) q hq
          have hge : (base ++ [id]).length ≤ q.length := hpre.length_le
          omega
        · exact absurd hq hne
      · exact fun hq => Or.inl hq
    rw [h1, hB]
    simp only [Nat.zero_add]

theorem writeFileOver_self_mem (fs : FS) (p : FPath) (d : FData) :
    (p, d) ∈ (fs.writeFileOver p d).files := by
  rw [FS.writeFileOver]
  split
  · rename_i hany
    obtain ⟨x, hx, he⟩ := List.any_eq_true.mp hany
    simp only [decide_eq_true_eq] at he
    apply List.mem_map.mpr
    exact ⟨x, hx, by rw [if_pos he]⟩
  · simp

/-- Claim C7: packaging `K` producers into a fresh destination packs them
strictly in input order into artifact directories named by their indices:
after the pack phase (before archiving) the directories strictly below
the staging directory are exactly `<staging>/<j>` for `j < K`; after
archiving succeeds nothing below (or at) the staging directory remains;
the returned `Beam` carries the packed producers, one per input producer,
and producer `j`'s attached artifact lives at `<staging>/<j>` (the
index mapping survives archiving and cleanup, which only touch the
filesystem); and the archive file `<base>/<id>.tar.gz` exists at the
end. -/
theorem artificer_index_mapping (data : List Producer) (base : FPath) (id : String)
    (meta : List (String × JVal)) (fs : FS) (outs : List Producer) (fs1 : FS)
    (b : Beam) (fsF : FS)
    (hfresh : ∀ q, (base ++ [id]) <+: q → q ∉ fs.dirs)
    (hpack : packPhase data base id meta fs = (Except.ok outs, fs1))
    (hrun : artificer data base id meta true fs = (Except.ok b, fsF)) :
    (∀ q, (base ++ [id]) <+: q → q ≠ (base ++ [id]) →
        (q ∈ fs1.dirs ↔ ∃ j, j < data.length ∧ q = (base ++ [id]) ++ [toString j]))
    ∧ (∀ q, (base ++ [id]) <+: q → q ∉ fsF.dirs)
    ∧ b.data = outs
    ∧ outs.length = data.length
    ∧ (∀ j d', outs.get? j = some d' → ∃ d a, data.get? j = some d ∧ d'.hook = d.hook ∧
        d'.artifact = some a ∧ a.path = (base ++ [id]) ++ [toString j])
    ∧ (base ++ [id ++ ".tar.gz"], FData.tarMark (base ++ [id])) ∈ fsF.files := by
  rw [artificer, hpack] at hrun
  have hrun2 :
      ((Except.ok (Beam.mk false [] outs (base ++ [id ++ ".tar.gz"])) : Except Err Beam),
        rmtree (base ++ [id])
          (fs1.writeFileOver (base ++ [id ++ ".tar.gz"]) (FData.tarMark (base ++ [id]))))
        = (Except.ok b, fsF) := hrun
  obtain ⟨h1, h2⟩ := Prod.mk.inj hrun2
  injection h1 with h1
  subst h1
  subst h2
  have hout : outs.length = data.length ∧ ∀ j d', outs.get? j = some d' →
      ∃ d a, data.get? j = some d ∧ d'.hook = d.hook ∧
        d'.artifact = some a ∧ a.path = (base ++ [id]) ++ [toString j] := by
    have hpack' := hpack
    rw [packPhase] at hpack'
    split at hpack'
    · exact absurd hpack' (by simp)
    · obtain ⟨hlen, hidx⟩ := packAll_outs data (base ++ [id]) 0 _ outs fs1 hpack'
      refine ⟨hlen, ?_⟩
      intro j d' hj
      obtain ⟨d, a, hd, hh, ha, hp⟩ := hidx j d' hj
      exact ⟨d, a, hd, hh, ha, by simpa using hp⟩
  refine ⟨?_, ?_, rfl, hout.1, hout.2, ?_⟩
  · intro q hpre hne
    rw [packPhase_strict_dirs data base id meta fs outs fs1 hpack q hpre hne]
    simp [hfresh q hpre]
  · intro q hpre hmem
    simp only [rmtree, List.mem_filter] at hmem
    have hl : leadsTo (base ++ [id]) q = true := (leadsTo_iff _ q).mpr hpre
    simp [hl] at hmem
  · have hmem : (base ++ [id ++ ".tar.gz"], FData.tarMark (base ++ [id]))
        ∈ (fs1.writeFileOver (base ++ [id ++ ".tar.gz"])
            (FData.tarMark (base ++ [id]))).files :=
      writeFileOver_self_mem fs1 _ _
    have hneq : id ≠ id ++ ".tar.gz" := by
      intro he
      have hl := congrArg String.length he
      rw [String.length_append] at hl
      have h7 : (".tar.gz" : String).length = 7 := rfl
      omega
    have hfalse : leadsTo (base ++ [id]) (base ++ [id ++ ".tar.gz"]) = false := by
      have := leadsTo_append_same base [id] [id ++ ".tar.gz"]
      rw [this, leadsTo]
      simp [hneq]
    simp only [rmtree, List.mem_filter]
    exact ⟨hmem, by simp [hfalse]⟩

/-- The two producers of the C7 witness scenario: one merges metadata,
one writes a file. -/
def c7data : List Producer :=
  [{ hook := some [PackAction.mergeJson [("k", JVal.js "v")]], artifact := none },
   { hook := some [PackAction.writeFile "out.txt" "hi"], artifact := none }]

/-- Empty starting filesystem of the C7 witness scenario. -/
def c7fs0 : FS := { dirs := [], files := [] }

/-- Producers as packed in the C7 witness scenario. -/
def c7outs : List Producer :=
  match (packPhase c7data ["dest"] "b7" [] c7fs0).1 with
  | Except.ok o => o
  | Except.error _ => []

/-- Filesystem after the pack phase in the C7 witness scenario. -/
def c7fs1 : FS := (packPhase c7data ["dest"] "b7" [] c7fs0).2

/-- The `Beam` produced in the C7 witness scenario. -/
def c7beam : Beam :=
  match (artificer c7data ["dest"] "b7" [] true c7fs0).1 with
  | Except.ok bb => bb
  | Except.error _ => { priv := false, wl := [], data := [], archive := [] }

/-- Final filesystem of the C7 witness scenario. -/
def c7fsF : FS := (artificer c7data ["dest"] "b7" [] true c7fs0).2

/-- Witness for `artificer_index_mapping` on the concrete two-producer
scenario. -/
theorem artificer_index_mapping_witness :
    (∀ q, (["dest"] ++ ["b7"]) <+: q → q ∉ c7fs0.dirs)
    ∧ (packPhase c7data ["dest"] "b7" [] c7fs0 = (Except.ok c7outs, c7fs1))
    ∧ (artificer c7data ["dest"] "b7" [] true c7fs0 = (Except.ok c7beam, c7fsF))
    ∧ ((∀ q, (["dest"] ++ ["b7"]) <+: q → q ≠ (["dest"] ++ ["b7"]) →
          (q ∈ c7fs1.dirs ↔ ∃ j, j < c7data.length ∧ q = (["dest"] ++ ["b7"]) ++ [toString j]))
      ∧ (∀ q, (["dest"] ++ ["b7"]) <+: q → q ∉ c7fsF.dirs)
      ∧ c7beam.data = c7outs
      ∧ c7outs.length = c7data.length
      ∧ (∀ j d', c7outs.get? j = some d' → ∃ d a, c7data.get? j = some d ∧ d'.hook = d.hook ∧
          d'.artifact = some a ∧ a.path = (["dest"] ++ ["b7"]) ++ [toString j])
      ∧ (["dest"] ++ ["b7" ++ ".tar.gz"], FData.tarMark (["dest"] ++ ["b7"])) ∈ c7fsF.files) :=
  ⟨fun q _ => List.not_mem_nil q, rfl, rfl,
    artificer_index_mapping c7data ["dest"] "b7" [] c7fs0 c7outs c7fs1 c7beam c7fsF
      (fun q _ => List.not_mem_nil q) rfl rfl⟩

